import Mathlib

/-!
Shallow embedding of `rename_video_files` (src/main.rs), a metadata-driven
batch file-renaming tool.  Pure parts of the program (context construction,
datetime normalisation) become Lean functions; the filesystem- and
library-facing parts (`ffmpeg::format::input`, `TinyTemplate::render`,
`Path::exists`, `fs::rename`, `fs::read_dir`, the local timezone) are
supplied through an explicit environment record, and every externally
visible action is recorded in an effect trace.

Machine floats (`f64`) appearing in the JSON context are represented by
exact integer fractions: the code only ever stores `f64::from(rational)`
and one product of such values, so each float slot carries its numerator
and denominator exactly.
-/

set_option autoImplicit false

/-- Model of `std::path::Path` / `PathBuf`: an optional root plus the
normalised components (Rust's `components()` strips `.` segments, so the
model assumes none are present). -/
structure FsPath where
  absolute : Bool
  components : List String
deriving DecidableEq, Repr

/-- `Path::file_name`: the final component, unless the path is empty /
a bare root or ends in `..`. -/
def FsPath.fileName? (p : FsPath) : Option String :=
  match p.components.getLast? with
  | none => none
  | some c => if c = ".." then none else some c

/-- `Path::parent`: drop the final component; `none` for a root or empty path. -/
def FsPath.parent? (p : FsPath) : Option FsPath :=
  match p.components with
  | [] => none
  | _ :: _ => some ⟨p.absolute, p.components.dropLast⟩

/-- `Path::join` with a single normal component (the rendered filename). -/
def FsPath.join (p : FsPath) (c : String) : FsPath :=
  ⟨p.absolute, p.components ++ [c]⟩

/-- Plain rendering of a path, used for the `{:?}`-formatted error strings. -/
def FsPath.render (p : FsPath) : String :=
  (if p.absolute then "/" else "") ++ String.intercalate "/" p.components

/-- `format!("{:?}", path)` on a `PathBuf` prints the quoted path. -/
def FsPath.debugStr (p : FsPath) : String :=
  "\"" ++ p.render ++ "\""

/-- Model of `serde_json::Value` for the shapes this program builds.
Floats carry an exact numerator/denominator pair (see module comment). -/
inductive Value where
  | str (s : String)
  | int (n : Int)
  | float (num den : Int)
  | bool (b : Bool)
  | arr (elems : List Value)
  | obj (fields : List (String × Value))

/-- A JSON object: key/value association list in insertion order. -/
abbrev JMap := List (String × Value)

/-- `serde_json::Map::insert`: replace the value in place if the key is
present, otherwise append the new binding. -/
def mapInsert (m : JMap) (k : String) (v : Value) : JMap :=
  if m.any (fun kv => kv.1 == k) then
    m.map (fun kv => if kv.1 == k then (k, v) else kv)
  else
    m ++ [(k, v)]

/-- `serde_json::Map::get` (total key lookup). -/
def mapGet? (m : JMap) (k : String) : Option Value :=
  (m.find? (fun kv => kv.1 == k)).map (fun kv => kv.2)

/-- Model of the `Error` enum of the program. -/
inductive Err where
  | message (s : String)
  | chronoFormatParse
  | ffmpeg
  | tinyTemplate (s : String)
  | io
deriving DecidableEq, Repr

/- ### Datetime normalisation

`format_datetime` delegates to the external `chrono` crate.  The model
below follows chrono's documented behaviour on the subset this program
exercises: parse an RFC-3339 UTC timestamp (`YYYY-MM-DDTHH:MM:SSZ`),
convert to the local timezone (an explicit minute offset in the model),
format with an strftime pattern (`%Y %m %d %H %M %S` directives). -/

/-- Calendar date-time fields (proleptic Gregorian, wall clock). -/
structure CivilDateTime where
  year : Int
  month : Int
  day : Int
  hour : Int
  minute : Int
  second : Int
deriving DecidableEq, Repr

/-- Numeric value of a decimal digit character. -/
def digitVal (c : Char) : Int :=
  ((c.toNat - 48 : Nat) : Int)

/-- Parse `YYYY-MM-DDTHH:MM:SSZ` (the RFC-3339 UTC subset the model covers). -/
def parseRfc3339Utc (s : String) : Option CivilDateTime :=
  match s.data with
  | [y1, y2, y3, y4, '-', o1, o2, '-', d1, d2, 'T',
     h1, h2, ':', i1, i2, ':', s1, s2, 'Z'] =>
    if ([y1, y2, y3, y4, o1, o2, d1, d2, h1, h2, i1, i2, s1, s2].all Char.isDigit) then
      let mo := digitVal o1 * 10 + digitVal o2
      let da := digitVal d1 * 10 + digitVal d2
      let ho := digitVal h1 * 10 + digitVal h2
      let mi := digitVal i1 * 10 + digitVal i2
      let se := digitVal s1 * 10 + digitVal s2
      if 1 ≤ mo && mo ≤ 12 && 1 ≤ da && da ≤ 31 && ho ≤ 23 && mi ≤ 59 && se ≤ 59 then
        some {
          year := digitVal y1 * 1000 + digitVal y2 * 100 + digitVal y3 * 10 + digitVal y4
          month := mo, day := da, hour := ho, minute := mi, second := se }
      else none
    else none
  | _ => none

/-- Days between 1970-01-01 and the given civil date (Hinnant's algorithm;
`Int.div` truncates toward zero exactly like the C family's `/`). -/
def daysFromCivil (y m d : Int) : Int :=
  let y := if m ≤ 2 then y - 1 else y
  let era := (if 0 ≤ y then y else y - 399).tdiv 400
  let yoe := y - era * 400
  let mp := if 2 < m then m - 3 else m + 9
  let doy := (153 * mp + 2).tdiv 5 + d - 1
  let doe := yoe * 365 + yoe.tdiv 4 - yoe.tdiv 100 + doy
  era * 146097 + doe - 719468

/-- Inverse of `daysFromCivil`. -/
def civilFromDays (z : Int) : Int × Int × Int :=
  let z := z + 719468
  let era := (if 0 ≤ z then z else z - 146096).tdiv 146097
  let doe := z - era * 146097
  let yoe := (doe - doe.tdiv 1460 + doe.tdiv 36524 - doe.tdiv 146096).tdiv 365
  let y := yoe + era * 400
  let doy := doe - (365 * yoe + yoe.tdiv 4 - yoe.tdiv 100)
  let mp := (5 * doy + 2).tdiv 153
  let d := doy - (153 * mp + 2).tdiv 5 + 1
  let m := if mp < 10 then mp + 3 else mp - 9
  (y + (if m ≤ 2 then 1 else 0), m, d)

/-- Seconds since the Unix epoch of a UTC civil date-time. -/
def secondsOfCivil (dt : CivilDateTime) : Int :=
  86400 * daysFromCivil dt.year dt.month dt.day
    + 3600 * dt.hour + 60 * dt.minute + dt.second

/-- Civil date-time of a seconds-since-epoch count (floor semantics). -/
def civilOfSeconds (t : Int) : CivilDateTime :=
  let days := t.fdiv 86400
  let sod := t.emod 86400
  let ymd := civilFromDays days
  { year := ymd.1, month := ymd.2.1, day := ymd.2.2
    hour := sod.tdiv 3600, minute := (sod.emod 3600).tdiv 60, second := sod.emod 60 }

/-- `DateTime<Utc> → DateTime<Local>`: shift the wall clock by the local
timezone offset (in minutes). -/
def toLocalTime (tzOffsetMinutes : Int) (dt : CivilDateTime) : CivilDateTime :=
  civilOfSeconds (secondsOfCivil dt + tzOffsetMinutes * 60)

/-- Zero-pad to two digits. -/
def pad2 (n : Int) : String :=
  if 0 ≤ n ∧ n < 10 then "0" ++ toString n else toString n

/-- Zero-pad to four digits. -/
def pad4 (n : Int) : String :=
  if 0 ≤ n ∧ n < 10 then "000" ++ toString n
  else if 0 ≤ n ∧ n < 100 then "00" ++ toString n
  else if 0 ≤ n ∧ n < 1000 then "0" ++ toString n
  else toString n

/-- strftime-style formatting over the directives the default pattern uses. -/
def strftimeAux (dt : CivilDateTime) : List Char → String
  | [] => ""
  | '%' :: c :: rest =>
    (match c with
     | 'Y' => pad4 dt.year
     | 'm' => pad2 dt.month
     | 'd' => pad2 dt.day
     | 'H' => pad2 dt.hour
     | 'M' => pad2 dt.minute
     | 'S' => pad2 dt.second
     | '%' => "%"
     | c => String.mk ['%', c]) ++ strftimeAux dt rest
  | c :: rest => String.mk [c] ++ strftimeAux dt rest

/-- `dt.format(fmt)` of chrono, on the modelled directive subset. -/
def formatStrftime (fmt : String) (dt : CivilDateTime) : String :=
  strftimeAux dt fmt.data

/-- `format_datetime` (src/main.rs lines 269–276): the value must be a
string, is parsed as an RFC-3339 UTC instant, converted to local time and
re-formatted with the caller's pattern. -/
def format_datetime (value : Value) (fmt : String) (tzOffsetMinutes : Int) : Except Err Value :=
  match value with
  | .str s =>
    match parseRfc3339Utc s with
    | none => .error .chronoFormatParse
    | some dt => .ok (.str (formatStrftime fmt (toLocalTime tzOffsetMinutes dt)))
  | _ => .error (.message "Value couldn't be converted to a string.")

/- ### Media data model

The ffmpeg-side objects (`Input`, `Stream`, codec contexts, decoders) are
modelled as plain records holding exactly the observations the program
makes of them.  `Option` marks the fallible library calls:
`codec` is `none` when `Context::from_parameters` fails (a hard error for
the file), `video`/`audio` are `none` when opening the decoder view fails
(silently tolerated). -/

/-- `ffmpeg::media::Type`. -/
inductive Medium where
  | unknown
  | video
  | audio
  | data
  | subtitle
  | attachment
deriving DecidableEq, Repr

/-- `format!("{:?}", medium)` of the `ffmpeg::media::Type` value. -/
def Medium.debugStr : Medium → String
  | .unknown => "Unknown"
  | .video => "Video"
  | .audio => "Audio"
  | .data => "Data"
  | .subtitle => "Subtitle"
  | .attachment => "Attachment"

/-- Observations of an opened video decoder view. -/
structure VideoInfo where
  bit_rate : Int
  max_bit_rate : Int
  delay : Int
  width : Int
  height : Int
  format : String
  has_b_frames : Bool
  aspect : Int × Int
  color_space : String
  color_range : String
  color_primaries : String
  color_transfer : String
  chroma_location : String
  references : Int
  intra_dc_precision : Int
deriving DecidableEq, Repr

/-- Observations of an opened audio decoder view. -/
structure AudioInfo where
  bit_rate : Int
  max_bit_rate : Int
  delay : Int
  rate : Int
  channels : Int
  format : String
  frames : Int
  align : Int
  channel_layout : String
deriving DecidableEq, Repr

/-- Observations of a codec context built from the stream's parameters,
together with the optional decoder views. -/
structure Codec where
  medium : Medium
  id : String
  video : Option VideoInfo
  audio : Option AudioInfo
deriving DecidableEq, Repr

/-- One container stream as the program observes it.  `codec = none`
models `Context::from_parameters` failing for this stream. -/
structure MediaStream where
  index : Nat
  time_base : Int × Int
  start_time : Int
  duration : Int
  frames : Int
  disposition : String
  discard : String
  rate : Int × Int
  codec : Option Codec
deriving DecidableEq, Repr

/-- A probed media container: metadata tags in native order, streams in
container order, and the probing library's best-stream choice per medium
(the chosen stream's `index()`, `none` when no stream of that medium
exists). -/
structure Container where
  metadata : List (String × String)
  streams : List MediaStream
  bestVideo : Option Nat
  bestAudio : Option Nat
  bestSubtitle : Option Nat
deriving DecidableEq, Repr

/-- CLI arguments that reach the pipeline (the template itself lives in the
environment as the compiled render function). -/
structure Args where
  datetime_format : String
  run : Bool
deriving DecidableEq, Repr

/- ### Context construction (`get_metadata_value`, src/main.rs 167–267) -/

/-- The metadata-tag loop (lines 169–181): copy each tag, normalising the
`creation_time` value and aliasing it under `ct`; a normalisation failure
aborts with the error (`?` operator). -/
def insertMetadataTags (fmt : String) (tz : Int) :
    List (String × String) → JMap → Except Err JMap
  | [], m => .ok m
  | (k, v) :: rest, m =>
    match (if k == "creation_time" then format_datetime (.str v) fmt tz else .ok (.str v)) with
    | .error e => .error e
    | .ok value =>
      let m := if k == "creation_time" then mapInsert m "ct" value else m
      insertMetadataTags fmt tz rest (mapInsert m k value)

/-- `insert_rational_value` (lines 183–190): the `[num, den]` pair under the
base key, the `num/den` string under `key_str`, the float under `key_float`. -/
def insert_rational_value (m : JMap) (key : String) (rational : Int × Int) : JMap :=
  let m := mapInsert m key (.arr [.int rational.1, .int rational.2])
  let m := mapInsert m (key ++ "_str")
    (.str (toString rational.1 ++ "/" ++ toString rational.2))
  mapInsert m (key ++ "_float") (.float rational.1 rational.2)

/-- The video-specific fields (lines 212–226). -/
def addVideoFields (m : JMap) (video : VideoInfo) : JMap :=
  let m := mapInsert m "bit_rate" (.int video.bit_rate)
  let m := mapInsert m "max_bit_rate" (.int video.max_bit_rate)
  let m := mapInsert m "delay" (.int video.delay)
  let m := mapInsert m "width" (.int video.width)
  let m := mapInsert m "height" (.int video.height)
  let m := mapInsert m "format" (.str video.format)
  let m := mapInsert m "has_b_frames" (.bool video.has_b_frames)
  let m := insert_rational_value m "aspect_ratio" video.aspect
  let m := mapInsert m "color_space" (.str video.color_space)
  let m := mapInsert m "color_range" (.str video.color_range)
  let m := mapInsert m "color_primaries" (.str video.color_primaries)
  let m := mapInsert m "color_transfer_characteristic" (.str video.color_transfer)
  let m := mapInsert m "chroma_location" (.str video.chroma_location)
  let m := mapInsert m "references" (.int video.references)
  mapInsert m "intra_dc_precision" (.int video.intra_dc_precision)

/-- The audio-specific fields (lines 230–238).  Note that `rate` and
`frames` overwrite the generic per-stream entries of the same name. -/
def addAudioFields (m : JMap) (audio : AudioInfo) : JMap :=
  let m := mapInsert m "bit_rate" (.int audio.bit_rate)
  let m := mapInsert m "max_bit_rate" (.int audio.max_bit_rate)
  let m := mapInsert m "delay" (.int audio.delay)
  let m := mapInsert m "rate" (.int audio.rate)
  let m := mapInsert m "channels" (.int audio.channels)
  let m := mapInsert m "format" (.str audio.format)
  let m := mapInsert m "frames" (.int audio.frames)
  let m := mapInsert m "align" (.int audio.align)
  mapInsert m "channel_layout" (.str audio.channel_layout)

/-- One iteration of the stream loop (lines 193–241): the generic fields,
then the codec context (whose failure aborts the whole build), then the
medium-specific decoder fields. -/
def buildStreamValue (s : MediaStream) : Except Err Value :=
  let m : JMap := []
  let m := mapInsert m "index" (.int s.index)
  let m := insert_rational_value m "time_base" s.time_base
  let m := mapInsert m "start_time" (.int s.start_time)
  let m := mapInsert m "duration_stream_timebase" (.int s.duration)
  let m := mapInsert m "duration_in_sec" (.float (s.duration * s.time_base.1) s.time_base.2)
  let m := mapInsert m "frames" (.int s.frames)
  let m := mapInsert m "disposition" (.str s.disposition)
  let m := mapInsert m "discard" (.str s.discard)
  let m := insert_rational_value m "rate" s.rate
  match s.codec with
  | none => .error .ffmpeg
  | some codec =>
    let m := mapInsert m "codec_medium" (.str codec.medium.debugStr)
    let m := mapInsert m "codec" (.str codec.id)
    let m :=
      if codec.medium = .video then
        match codec.video with
        | some video => addVideoFields m video
        | none => m
      else if codec.medium = .audio then
        match codec.audio with
        | some audio => addAudioFields m audio
        | none => m
      else m
    .ok (.obj m)

/-- The stream loop itself, accumulating the `streams` vector. -/
def buildStreams : List MediaStream → Except Err (List Value)
  | [] => .ok []
  | s :: rest =>
    match buildStreamValue s with
    | .error e => .error e
    | .ok v =>
      match buildStreams rest with
      | .error e => .error e
      | .ok vs => .ok (v :: vs)

/-- One best-stream alias block (lines 244–263): when the library selected
a best stream, look its index up in the built vector with the
`Option`-returning `Vec::get`; insert the aliases only on a hit. -/
def insertBest (m : JMap) (k1 k2 : String) (best : Option Nat) (streams : List Value) : JMap :=
  match best with
  | none => m
  | some i =>
    match streams.get? i with
    | none => m
    | some v => mapInsert (mapInsert m k1 v) k2 v

/-- `get_metadata_value` (lines 167–267).  The process's local timezone is
an explicit extra parameter (the code reads it implicitly via
`chrono::Local`). -/
def get_metadata_value (ctx : Container) (args : Args) (tz : Int) : Except Err Value :=
  match insertMetadataTags args.datetime_format tz ctx.metadata [] with
  | .error e => .error e
  | .ok root =>
    match buildStreams ctx.streams with
    | .error e => .error e
    | .ok streams =>
      let root := insertBest root "v" "video" ctx.bestVideo streams
      let root := insertBest root "a" "audio" ctx.bestAudio streams
      let root := insertBest root "s" "subtitle" ctx.bestSubtitle streams
      let root := mapInsert root "streams" (.arr streams)
      .ok (.obj root)

/- ### The rename pipeline (`process_file`, `process_dir`) -/

/-- Externally visible actions of one run, in order. -/
inductive Effect where
  | probe (p : FsPath)
  | renderCall (v : Value)
  | renameCall (src dst : FsPath)
  | logRename (oldName newName : String)
  | logDryRun (oldName newName : String)
  | logErrorInPath (p : FsPath) (e : Err)

/-- The ambient world: probing, template rendering, and the filesystem
queries the pipeline makes.  `probe p = none` models
`ffmpeg::format::input` failing (not a media file); `renameOk` tells
whether the `fs::rename` syscall succeeds. -/
structure Env where
  probe : FsPath → Option Container
  render : Value → Except Err String
  fsExists : FsPath → Bool
  renameOk : FsPath → FsPath → Bool
  isDir : FsPath → Bool
  readDir : FsPath → Option (List FsPath)
  tzOffset : Int

/-- The three filename injections of lines 141–143. -/
def inject_filename (m : JMap) (filename : String) : JMap :=
  mapInsert (mapInsert (mapInsert m "org" (.str filename))
    "original" (.str filename)) "original_filename" (.str filename)

/-- `process_file` (lines 126–165), returning its `Result` and the trace of
externally visible actions. -/
def process_file (env : Env) (args : Args) (path : FsPath) :
    Except Err Unit × List Effect :=
  match path.fileName? with
  | none => (.ok (), [])
  | some filename =>
    match env.probe path with
    | none => (.ok (), [.probe path])
    | some ctx =>
      match get_metadata_value ctx args env.tzOffset with
      | .error e => (.error e, [.probe path])
      | .ok metadata_value =>
        match metadata_value with
        | .obj m =>
          let m := inject_filename m filename
          match path.parent? with
          | none =>
            (.error (.message ("Couldn't get parent dir from: " ++ path.debugStr)),
             [.probe path])
          | some parent_dir =>
            match env.render (.obj m) with
            | .error e => (.error e, [.probe path, .renderCall (.obj m)])
            | .ok new_filename =>
              let new_path := parent_dir.join new_filename
              if env.fsExists new_path then
                (.error (.message ("File already exists at new path: " ++ new_path.debugStr)),
                 [.probe path, .renderCall (.obj m)])
              else if args.run then
                if env.renameOk path new_path then
                  (.ok (), [.probe path, .renderCall (.obj m),
                            .renameCall path new_path, .logRename filename new_filename])
                else
                  (.error .io, [.probe path, .renderCall (.obj m),
                                .renameCall path new_path])
              else
                (.ok (), [.probe path, .renderCall (.obj m),
                          .logDryRun filename new_filename])
        | _ =>
          -- the source panics here; unreachable, `get_metadata_value`
          -- always returns an object
          (.error (.message "metadata should be an json object"), [.probe path])

/-- The child loop of `process_dir` (lines 111–122): a subdirectory
failure propagates immediately (`?`), a `process_file` failure is logged
with the offending path and traversal continues. -/
def dirLoop (env : Env) (args : Args)
    (recur : FsPath → Except Err Unit × List Effect) :
    List FsPath → Except Err Unit × List Effect
  | [] => (.ok (), [])
  | c :: rest =>
    if env.isDir c then
      match recur c with
      | (.error e, tr) => (.error e, tr)
      | (.ok _, tr) =>
        let p := dirLoop env args recur rest
        (p.1, tr ++ p.2)
    else
      match process_file env args c with
      | (.error e, tr) =>
        let p := dirLoop env args recur rest
        (p.1, tr ++ [.logErrorInPath c e] ++ p.2)
      | (.ok _, tr) =>
        let p := dirLoop env args recur rest
        (p.1, tr ++ p.2)

/-- `process_dir` (lines 106–124), with a recursion-depth fuel (the code
recurses on the real directory tree, which is finite). -/
def process_dir (env : Env) (args : Args) :
    Nat → FsPath → Except Err Unit × List Effect
  | 0, _ => (.error (.message "recursion fuel exhausted"), [])
  | fuel + 1, path =>
    if env.isDir path then
      match env.readDir path with
      | none => (.error .io, [])
      | some children => dirLoop env args (process_dir env args fuel) children
    else
      (.error (.message ("Couldn't get parent dir from: " ++ path.debugStr)), [])

/-- `true` iff the trace contains a rename syscall. -/
def hasRename (tr : List Effect) : Bool :=
  tr.any (fun e => match e with | .renameCall _ _ => true | _ => false)

/-- `true` iff the trace mutates nothing (only probes). -/
def onlyProbes (tr : List Effect) : Bool :=
  tr.all (fun e => match e with | .probe _ => true | _ => false)


/- ### Concrete fixtures used by the witness theorems -/

/-- A 1920×1080 opened video decoder view. -/
def wVideoInfo : VideoInfo :=
  { bit_rate := 4000000, max_bit_rate := 0, delay := 0, width := 1920,
    height := 1080, format := "YUV420P", has_b_frames := true, aspect := (16, 9),
    color_space := "BT709", color_range := "MPEG", color_primaries := "BT709",
    color_transfer := "BT709", chroma_location := "Left", references := 1,
    intra_dc_precision := 8 }

/-- A stereo opened audio decoder view with 44100 Hz sample rate. -/
def wAudioInfo : AudioInfo :=
  { bit_rate := 128000, max_bit_rate := 0, delay := 0, rate := 44100,
    channels := 2, format := "FLTP", frames := 0, align := 1,
    channel_layout := "STEREO" }

def wVideoCodec : Codec :=
  { medium := .video, id := "H264", video := some wVideoInfo, audio := none }

def wAudioCodec : Codec :=
  { medium := .audio, id := "AAC", video := none, audio := some wAudioInfo }

def wVideoStream : MediaStream :=
  { index := 0, time_base := (1, 90000), start_time := 0, duration := 900000,
    frames := 300, disposition := "(empty)", discard := "Default",
    rate := (25, 1), codec := some wVideoCodec }

/-- An audio stream whose generic `rate` rational is 30000/1001. -/
def wAudioStream : MediaStream :=
  { index := 1, time_base := (1, 48000), start_time := 0, duration := 480000,
    frames := 0, disposition := "(empty)", discard := "Default",
    rate := (30000, 1001), codec := some wAudioCodec }

def wContainer : Container :=
  { metadata := [("creation_time", "2023-05-01T10:00:00Z"), ("title", "T")],
    streams := [wVideoStream, wAudioStream],
    bestVideo := some 0, bestAudio := some 1, bestSubtitle := none }

/-- A container whose metadata tags collide with the injected keys. -/
def wShadowContainer : Container :=
  { metadata := [("streams", "tagvalue"), ("v", "tagvalue"), ("org", "tagvalue")],
    streams := [wVideoStream],
    bestVideo := some 0, bestAudio := none, bestSubtitle := none }

/-- A container whose creation timestamp does not parse. -/
def wBadContainer : Container :=
  { metadata := [("creation_time", "oops")], streams := [],
    bestVideo := none, bestAudio := none, bestSubtitle := none }

def wArgs : Args := { datetime_format := "%Y%m%d%H%M%S", run := false }

def wFile : FsPath := { absolute := true, components := ["d", "f.mp4"] }

def wTextFile : FsPath := { absolute := true, components := ["d", "notes.txt"] }

def wRootPath : FsPath := { absolute := true, components := [] }

def wDotDotPath : FsPath := { absolute := false, components := ["a", ".."] }

def wEnv : Env :=
  { probe := fun p => if p = wFile then some wContainer else none
    render := fun _ => .ok "out.mp4"
    fsExists := fun _ => false
    renameOk := fun _ _ => true
    isDir := fun _ => false
    readDir := fun _ => none
    tzOffset := 0 }

/-- Same world, but the rename destination already exists. -/
def wEnvExists : Env :=
  { wEnv with fsExists := fun _ => true }

def wTagsRoot : JMap :=
  match insertMetadataTags wArgs.datetime_format 0 wContainer.metadata [] with
  | .ok m => m
  | .error _ => []

def wStreams : List Value :=
  match buildStreams wContainer.streams with
  | .ok vs => vs
  | .error _ => []

def wRootMap : JMap :=
  match get_metadata_value wContainer wArgs 0 with
  | .ok (.obj m) => m
  | _ => []

def wVideoStreamValue : Value :=
  match buildStreamValue wVideoStream with
  | .ok v => v
  | .error _ => .int 0

def wAudioStreamValue : Value :=
  match buildStreamValue wAudioStream with
  | .ok v => v
  | .error _ => .int 0

def wAudioMap : JMap :=
  match buildStreamValue wAudioStream with
  | .ok (.obj m) => m
  | _ => []

def wShadowTagsRoot : JMap :=
  match insertMetadataTags wArgs.datetime_format 0 wShadowContainer.metadata [] with
  | .ok m => m
  | .error _ => []

def wShadowStreams : List Value :=
  match buildStreams wShadowContainer.streams with
  | .ok vs => vs
  | .error _ => []

def wShadowRootMap : JMap :=
  match get_metadata_value wShadowContainer wArgs 0 with
  | .ok (.obj m) => m
  | _ => []

def wDirA : FsPath := { absolute := true, components := ["a"] }

def wSub : FsPath := { absolute := true, components := ["a", "sub"] }

def wDirB : FsPath := { absolute := true, components := ["b"] }

def wBadFile : FsPath := { absolute := true, components := ["b", "bad.mp4"] }

/-- A world with two directories: `/a` holds an unreadable subdirectory,
`/b` holds a file whose metadata normalisation fails. -/
def wDirEnv : Env :=
  { probe := fun p => if p = wBadFile then some wBadContainer else none
    render := fun _ => .ok "out.mp4"
    fsExists := fun _ => false
    renameOk := fun _ _ => true
    isDir := fun p => p == wDirA || p == wDirB || p == wSub
    readDir := fun p =>
      if p = wDirA then some [wSub]
      else if p = wDirB then some [wBadFile]
      else none
    tzOffset := 0 }

/- ### Helper lemmas about the association-list map -/

theorem mapGet?_cons_self (kv : String × Value) (rest : JMap) (k : String)
    (h : kv.1 = k) : mapGet? (kv :: rest) k = some kv.2 := by
  simp [mapGet?, List.find?_cons, h]

theorem mapGet?_cons_ne (kv : String × Value) (rest : JMap) (k : String)
    (h : ¬(kv.1 = k)) : mapGet? (kv :: rest) k = mapGet? rest k := by
  simp [mapGet?, List.find?_cons, h]

theorem mapInsert_cons_ne (kv : String × Value) (rest : JMap) (k : String) (v : Value)
    (h : ¬(kv.1 = k)) : mapInsert (kv :: rest) k v = kv :: mapInsert rest k v := by
  by_cases ha : rest.any (fun kv => kv.1 == k)
  · simp [mapInsert, ha, h]
  · simp [mapInsert, ha, h]

theorem mapInsert_cons_eq (kv : String × Value) (rest : JMap) (k : String) (v : Value)
    (h : kv.1 = k) :
    mapInsert (kv :: rest) k v
      = (k, v) :: rest.map (fun kv => if kv.1 == k then (k, v) else kv) := by
  simp [mapInsert, h]

theorem mapGet?_map_replace (rest : JMap) (k k' : String) (v : Value) (h : ¬(k' = k)) :
    mapGet? (rest.map (fun kv => if kv.1 == k then (k, v) else kv)) k' = mapGet? rest k' := by
  unfold mapGet?
  rw [List.find?_map]
  have hp : ((fun kv => kv.1 == k') ∘ (fun kv : String × Value => if kv.1 == k then (k, v) else kv))
      = (fun kv : String × Value => kv.1 == k') := by
    funext kv
    by_cases hk : kv.1 = k
    · simp [Function.comp, hk]
    · simp [Function.comp, hk]
  rw [hp]
  cases hf : rest.find? (fun kv => kv.1 == k') with
  | none => simp
  | some e =>
    have he := List.find?_some hf
    simp only [beq_iff_eq] at he
    have hek : ¬(e.1 = k) := fun hc => h (he ▸ hc)
    simp [hek]

/-- The fundamental law of `mapInsert`: the inserted key now maps to the
new value, every other key is untouched. -/
theorem mapGet?_insert (m : JMap) (k k' : String) (v : Value) :
    mapGet? (mapInsert m k v) k' = if k' = k then some v else mapGet? m k' := by
  induction m with
  | nil =>
    by_cases h : k' = k
    · simp [mapInsert, mapGet?, h]
    · simp [mapInsert, mapGet?, h, Ne.symm h]
  | cons kv rest ih =>
    by_cases hk : kv.1 = k
    · rw [mapInsert_cons_eq kv rest k v hk]
      by_cases h : k' = k
      · subst h
        rw [mapGet?_cons_self ⟨k', v⟩ _ k' rfl, if_pos rfl]
      · rw [mapGet?_cons_ne ⟨k, v⟩ _ k' (fun hc => h hc.symm),
            mapGet?_map_replace rest k k' v h,
            mapGet?_cons_ne kv rest k' (fun hc => h (hc.symm.trans hk)), if_neg h]
    · rw [mapInsert_cons_ne kv rest k v hk]
      by_cases h : k' = kv.1
      · have hkk : ¬(k' = k) := fun hc => hk (h ▸ hc)
        rw [mapGet?_cons_self kv _ k' h.symm, mapGet?_cons_self kv rest k' h.symm, if_neg hkk]
      · rw [mapGet?_cons_ne kv _ k' (fun hc => h hc.symm),
            mapGet?_cons_ne kv rest k' (fun hc => h hc.symm), ih]

theorem mapGet?_insert_self (m : JMap) (k : String) (v : Value) :
    mapGet? (mapInsert m k v) k = some v := by
  rw [mapGet?_insert, if_pos rfl]

theorem mapGet?_insert_ne (m : JMap) (k k' : String) (v : Value) (h : ¬(k' = k)) :
    mapGet? (mapInsert m k v) k' = mapGet? m k' := by
  rw [mapGet?_insert, if_neg h]

theorem mapGet?_insertBest_ne (m : JMap) (k1 k2 k : String) (best : Option Nat)
    (streams : List Value) (h1 : ¬(k = k1)) (h2 : ¬(k = k2)) :
    mapGet? (insertBest m k1 k2 best streams) k = mapGet? m k := by
  cases best with
  | none => rfl
  | some i =>
    simp only [insertBest]
    cases hs : streams.get? i with
    | none => rfl
    | some v => rw [mapGet?_insert_ne _ _ _ _ h2, mapGet?_insert_ne _ _ _ _ h1]

theorem mapGet?_insertBest_hit (m : JMap) (k1 k2 : String) (i : Nat)
    (streams : List Value) (sv : Value) (h : streams.get? i = some sv)
    (h12 : ¬(k1 = k2)) :
    mapGet? (insertBest m k1 k2 (some i) streams) k1 = some sv
      ∧ mapGet? (insertBest m k1 k2 (some i) streams) k2 = some sv := by
  simp only [insertBest, h]
  exact ⟨by rw [mapGet?_insert_ne _ _ _ _ h12, mapGet?_insert_self],
         mapGet?_insert_self _ _ _⟩

theorem insertBest_miss (m : JMap) (k1 k2 : String) (i : Nat) (streams : List Value)
    (h : streams.get? i = none) :
    insertBest m k1 k2 (some i) streams = m := by
  simp only [insertBest, h]

/-- Keys not written by the tag loop keep their binding: a key is written
only when it occurs among the tag names, or is `ct` while a
`creation_time` tag occurs. -/
theorem insertMetadataTags_preserve (fmt : String) (tz : Int) :
    ∀ (tags : List (String × String)) (m root : JMap) (k : String),
      insertMetadataTags fmt tz tags m = .ok root →
      k ∉ tags.map Prod.fst →
      (k = "ct" → "creation_time" ∉ tags.map Prod.fst) →
      mapGet? root k = mapGet? m k := by
  intro tags
  induction tags with
  | nil =>
    intro m root k hok _ _
    simp only [insertMetadataTags] at hok
    cases hok
    rfl
  | cons kv rest ih =>
    intro m root k hok hnot hct
    obtain ⟨k', u'⟩ := kv
    simp only [insertMetadataTags] at hok
    have hkn : ¬(k = k') := by
      intro hc
      exact hnot (by simp [hc])
    cases hv : (if (k' == "creation_time") = true then format_datetime (.str u') fmt tz
        else Except.ok (.str u')) with
    | error e => rw [hv] at hok; cases hok
    | ok value =>
      rw [hv] at hok
      have hrest := ih _ root k hok
        (fun hc => hnot (List.mem_cons_of_mem _ hc))
        (fun hc hmem => hct hc (List.mem_cons_of_mem _ hmem))
      rw [hrest, mapGet?_insert_ne _ _ _ _ hkn]
      by_cases hcr : k' = "creation_time"
      · simp only [hcr, beq_self_eq_true, if_pos]
        by_cases hkc : k = "ct"
        · exact absurd (by simp [hcr]) (hct hkc)
        · rw [mapGet?_insert_ne _ _ _ _ hkc]
      · simp [hcr]

/-- Every non-`creation_time` tag is copied unchanged under its own key
(when the tag keys are distinct and none is the alias `ct`). -/
theorem insertMetadataTags_copies (fmt : String) (tz : Int) :
    ∀ (tags : List (String × String)) (m root : JMap),
      insertMetadataTags fmt tz tags m = .ok root →
      (tags.map Prod.fst).Nodup →
      "ct" ∉ tags.map Prod.fst →
      ∀ k u, (k, u) ∈ tags → ¬(k = "creation_time") →
        mapGet? root k = some (.str u) := by
  intro tags
  induction tags with
  | nil =>
    intro m root _ _ _ k u hmem
    cases hmem
  | cons kv rest ih =>
    intro m root hok hnodup hct k u hmem hkcr
    obtain ⟨k', u'⟩ := kv
    simp only [insertMetadataTags] at hok
    have hnodup' : (rest.map Prod.fst).Nodup ∧ k' ∉ rest.map Prod.fst := by
      simp only [List.map_cons, List.nodup_cons] at hnodup
      exact ⟨hnodup.2, hnodup.1⟩
    have hct' : "ct" ∉ rest.map Prod.fst := by
      intro hc
      exact hct (by simp only [List.map_cons]; exact List.mem_cons_of_mem _ hc)
    have hctk : ¬(k' = "ct") := by
      intro hc
      exact hct (by simp only [List.map_cons, hc]; exact List.mem_cons_self _ _)
    cases hv : (if (k' == "creation_time") = true then format_datetime (.str u') fmt tz
        else Except.ok (.str u')) with
    | error e => rw [hv] at hok; cases hok
    | ok value =>
      rw [hv] at hok
      rcases List.mem_cons.mp hmem with hhead | htail
      · injection hhead with hk hu
        subst hk
        subst hu
        have hvv : value = .str u := by
          simp only [beq_iff_eq, if_neg hkcr] at hv
          exact (Except.ok.injEq _ _).mp hv |>.symm
        subst hvv
        have hpres := insertMetadataTags_preserve fmt tz rest _ root k hok hnodup'.2
          (fun hc => absurd hc hctk)
        rw [hpres, mapGet?_insert_self]
      · exact ih _ root hok hnodup'.1 hct' k u htail hkcr

/-- The `creation_time` tag is normalised and stored under both its own
key and the alias `ct`. -/
theorem insertMetadataTags_creation (fmt : String) (tz : Int) :
    ∀ (tags : List (String × String)) (m root : JMap) (cv : String) (w : Value),
      insertMetadataTags fmt tz tags m = .ok root →
      (tags.map Prod.fst).Nodup →
      "ct" ∉ tags.map Prod.fst →
      ("creation_time", cv) ∈ tags →
      format_datetime (.str cv) fmt tz = .ok w →
      mapGet? root "creation_time" = some w ∧ mapGet? root "ct" = some w := by
  intro tags
  induction tags with
  | nil =>
    intro m root cv w _ _ _ hmem
    cases hmem
  | cons kv rest ih =>
    intro m root cv w hok hnodup hct hmem hfmt
    obtain ⟨k', u'⟩ := kv
    simp only [insertMetadataTags] at hok
    have hnodup' : (rest.map Prod.fst).Nodup ∧ k' ∉ rest.map Prod.fst := by
      simp only [List.map_cons, List.nodup_cons] at hnodup
      exact ⟨hnodup.2, hnodup.1⟩
    have hct' : "ct" ∉ rest.map Prod.fst := by
      intro hc
      exact hct (by simp only [List.map_cons]; exact List.mem_cons_of_mem _ hc)
    cases hv : (if (k' == "creation_time") = true then format_datetime (.str u') fmt tz
        else Except.ok (.str u')) with
    | error e => rw [hv] at hok; cases hok
    | ok value =>
      rw [hv] at hok
      rcases List.mem_cons.mp hmem with hhead | htail
      · injection hhead with hk hu
        subst hu
        have hk' : k' = "creation_time" := hk.symm ▸ rfl
        subst hk'
        have hvv : value = w := by
          simp only [beq_self_eq_true, if_pos] at hv
          rw [hfmt] at hv
          exact (Except.ok.injEq _ _).mp hv |>.symm
        subst hvv
        have hpres1 := insertMetadataTags_preserve fmt tz rest _ root "creation_time" hok
          hnodup'.2 (fun hc => absurd hc (by simp))
        have hpres2 := insertMetadataTags_preserve fmt tz rest _ root "ct" hok
          (hct') (fun _ => hnodup'.2)
        constructor
        · rw [hpres1]
          simp only [beq_self_eq_true, if_pos]
          rw [mapGet?_insert_self]
        · rw [hpres2]
          simp only [beq_self_eq_true, if_pos]
          rw [mapGet?_insert_ne _ _ _ _ (by simp), mapGet?_insert_self]
      · exact ih _ root cv w hok hnodup'.1 hct' htail hfmt

/-- Running the child loop after a prefix that fully succeeded appends
results. -/
theorem dirLoop_append_ok (env : Env) (args : Args)
    (recur : FsPath → Except Err Unit × List Effect) :
    ∀ (pre l : List FsPath) (tr : List Effect),
      dirLoop env args recur pre = (.ok (), tr) →
      dirLoop env args recur (pre ++ l)
        = ((dirLoop env args recur l).1, tr ++ (dirLoop env args recur l).2) := by
  intro pre
  induction pre with
  | nil =>
    intro l tr h
    simp only [dirLoop] at h
    injection h with h1 h2
    subst h2
    rfl
  | cons c pre' ih =>
    intro l tr h
    simp only [dirLoop] at h ⊢
    cases hd : env.isDir c with
    | true =>
      rw [hd] at h
      cases hr : recur c with
      | mk r trc =>
        rw [hr] at h
        cases r with
        | error e => exact absurd ((Prod.mk.injEq _ _ _ _).mp h).1 (by simp)
        | ok u =>
          have h1 : (dirLoop env args recur pre').1 = Except.ok () :=
            ((Prod.mk.injEq _ _ _ _).mp h).1
          have h2 : tr = trc ++ (dirLoop env args recur pre').2 :=
            ((Prod.mk.injEq _ _ _ _).mp h).2.symm
          have hpre' : dirLoop env args recur pre'
              = (.ok (), (dirLoop env args recur pre').2) := by
            rw [← h1]
          show ((dirLoop env args recur (pre' ++ l)).1,
              trc ++ (dirLoop env args recur (pre' ++ l)).2)
            = ((dirLoop env args recur l).1, tr ++ (dirLoop env args recur l).2)
          rw [ih l _ hpre', h2, List.append_assoc]
    | false =>
      rw [hd] at h
      cases hp : process_file env args c with
      | mk r trc =>
        rw [hp] at h
        cases r with
        | error e =>
          have h1 : (dirLoop env args recur pre').1 = Except.ok () :=
            ((Prod.mk.injEq _ _ _ _).mp h).1
          have h2 : tr = trc ++ [Effect.logErrorInPath c e] ++ (dirLoop env args recur pre').2 :=
            ((Prod.mk.injEq _ _ _ _).mp h).2.symm
          have hpre' : dirLoop env args recur pre'
              = (.ok (), (dirLoop env args recur pre').2) := by
            rw [← h1]
          show ((dirLoop env args recur (pre' ++ l)).1,
              trc ++ [Effect.logErrorInPath c e] ++ (dirLoop env args recur (pre' ++ l)).2)
            = ((dirLoop env args recur l).1, tr ++ (dirLoop env args recur l).2)
          rw [ih l _ hpre', h2]
          simp [List.append_assoc]
        | ok u =>
          have h1 : (dirLoop env args recur pre').1 = Except.ok () :=
            ((Prod.mk.injEq _ _ _ _).mp h).1
          have h2 : tr = trc ++ (dirLoop env args recur pre').2 :=
            ((Prod.mk.injEq _ _ _ _).mp h).2.symm
          have hpre' : dirLoop env args recur pre'
              = (.ok (), (dirLoop env args recur pre').2) := by
            rw [← h1]
          show ((dirLoop env args recur (pre' ++ l)).1,
              trc ++ (dirLoop env args recur (pre' ++ l)).2)
            = ((dirLoop env args recur l).1, tr ++ (dirLoop env args recur l).2)
          rw [ih l _ hpre', h2, List.append_assoc]

/- ### Claim theorems: the rename pipeline -/
-- scratch: claim theorems for process_file (C9, C4, C2, C1)

/-- C9: a path without a final component is skipped before any action. -/
theorem c9_no_filename_noop (env : Env) (args : Args) (path : FsPath)
    (h : path.fileName? = none) :
    process_file env args path = (.ok (), []) := by
  simp only [process_file, h]

/-- C4: probe failure is a silent success with no filesystem action. -/
theorem c4_probe_failure_silent_skip (env : Env) (args : Args) (path : FsPath)
    (h : env.probe path = none) :
    (process_file env args path).1 = .ok ()
      ∧ onlyProbes (process_file env args path).2 = true := by
  cases hf : path.fileName? with
  | none => simp [process_file, hf, onlyProbes]
  | some fn => simp [process_file, hf, h, onlyProbes]

/-- C2: with `run = false` no rename syscall ever happens. -/
theorem c2_dry_run_no_rename (env : Env) (args : Args) (path : FsPath)
    (h : args.run = false) :
    hasRename (process_file env args path).2 = false := by
  cases hf : path.fileName? with
  | none => simp [process_file, hf, hasRename]
  | some fn =>
    cases hp : env.probe path with
    | none => simp [process_file, hf, hp, hasRename]
    | some ctx =>
      cases hm : get_metadata_value ctx args env.tzOffset with
      | error e => simp [process_file, hf, hp, hm, hasRename]
      | ok mv =>
        cases mv with
        | obj m =>
          cases hpar : path.parent? with
          | none => simp [process_file, hf, hp, hm, hpar, hasRename]
          | some parent_dir =>
            cases hr : env.render (.obj (inject_filename m fn)) with
            | error e => simp [process_file, hf, hp, hm, hpar, hr, hasRename]
            | ok new_filename =>
              cases he : env.fsExists (parent_dir.join new_filename) with
              | true => simp [process_file, hf, hp, hm, hpar, hr, he, hasRename]
              | false => simp [process_file, hf, hp, hm, hpar, hr, he, h, hasRename]
        | str s => simp [process_file, hf, hp, hm, hasRename]
        | int n => simp [process_file, hf, hp, hm, hasRename]
        | float a b => simp [process_file, hf, hp, hm, hasRename]
        | bool b => simp [process_file, hf, hp, hm, hasRename]
        | arr xs => simp [process_file, hf, hp, hm, hasRename]

/-- C1: an existing destination is a collision error and no rename, in
both modes. -/
theorem c1_collision_no_rename (env : Env) (args : Args) (path : FsPath)
    (ctx : Container) (m : JMap) (fn new_filename : String) (parent_dir : FsPath)
    (hf : path.fileName? = some fn)
    (hp : env.probe path = some ctx)
    (hm : get_metadata_value ctx args env.tzOffset = .ok (.obj m))
    (hpar : path.parent? = some parent_dir)
    (hr : env.render (.obj (inject_filename m fn)) = .ok new_filename)
    (he : env.fsExists (parent_dir.join new_filename) = true) :
    process_file env args path
      = (.error (.message ("File already exists at new path: "
          ++ (parent_dir.join new_filename).debugStr)),
         [.probe path, .renderCall (.obj (inject_filename m fn))])
      ∧ hasRename (process_file env args path).2 = false := by
  have hpf : process_file env args path
      = (.error (.message ("File already exists at new path: "
          ++ (parent_dir.join new_filename).debugStr)),
         [.probe path, .renderCall (.obj (inject_filename m fn))]) := by
    simp [process_file, hf, hp, hm, hpar, hr, he]
  exact ⟨hpf, by rw [hpf]; rfl⟩
-- scratch: root-map reduction helper, C7, C8, C10

/-- `get_metadata_value` in solved form, given its two fallible stages. -/
theorem get_metadata_value_eq (ctx : Container) (args : Args) (tz : Int)
    (tagsRoot : JMap) (streams : List Value)
    (h1 : insertMetadataTags args.datetime_format tz ctx.metadata [] = .ok tagsRoot)
    (h2 : buildStreams ctx.streams = .ok streams) :
    get_metadata_value ctx args tz
      = .ok (.obj (mapInsert
          (insertBest (insertBest (insertBest tagsRoot "v" "video" ctx.bestVideo streams)
            "a" "audio" ctx.bestAudio streams) "s" "subtitle" ctx.bestSubtitle streams)
          "streams" (.arr streams))) := by
  simp [get_metadata_value, h1, h2]

theorem insertBest_none (m : JMap) (k1 k2 : String) (streams : List Value) :
    insertBest m k1 k2 none streams = m := rfl

/-- Keys other than the injected aliases read through the alias block down
to the tag map. -/
theorem mapGet?_aliasBlock (tagsRoot : JMap) (streams : List Value)
    (bv ba bs : Option Nat) (k : String)
    (h : k ∉ (["v", "video", "a", "audio", "s", "subtitle", "streams"] : List String)) :
    mapGet? (mapInsert
        (insertBest (insertBest (insertBest tagsRoot "v" "video" bv streams)
          "a" "audio" ba streams) "s" "subtitle" bs streams)
        "streams" (.arr streams)) k
      = mapGet? tagsRoot k := by
  simp only [List.mem_cons, List.not_mem_nil, or_false, not_or] at h
  obtain ⟨h1, h2, h3, h4, h5, h6, h7⟩ := h
  rw [mapGet?_insert_ne _ _ _ _ h7,
      mapGet?_insertBest_ne _ _ _ _ _ _ h5 h6,
      mapGet?_insertBest_ne _ _ _ _ _ _ h3 h4,
      mapGet?_insertBest_ne _ _ _ _ _ _ h1 h2]

/-- C7: best-stream aliases are present exactly when the library picked a
best stream (and nothing else writes those keys). -/
theorem c7_best_stream_aliases (ctx : Container) (args : Args) (tz : Int)
    (tagsRoot root : JMap) (streams : List Value)
    (h1 : insertMetadataTags args.datetime_format tz ctx.metadata [] = .ok tagsRoot)
    (h2 : buildStreams ctx.streams = .ok streams)
    (hroot : get_metadata_value ctx args tz = .ok (.obj root)) :
    (∀ i sv, ctx.bestVideo = some i → streams.get? i = some sv →
       mapGet? root "v" = some sv ∧ mapGet? root "video" = some sv)
    ∧ (∀ i sv, ctx.bestAudio = some i → streams.get? i = some sv →
       mapGet? root "a" = some sv ∧ mapGet? root "audio" = some sv)
    ∧ (∀ i sv, ctx.bestSubtitle = some i → streams.get? i = some sv →
       mapGet? root "s" = some sv ∧ mapGet? root "subtitle" = some sv)
    ∧ (ctx.bestVideo = none →
       "v" ∉ ctx.metadata.map Prod.fst → "video" ∉ ctx.metadata.map Prod.fst →
       mapGet? root "v" = none ∧ mapGet? root "video" = none)
    ∧ (ctx.bestAudio = none →
       "a" ∉ ctx.metadata.map Prod.fst → "audio" ∉ ctx.metadata.map Prod.fst →
       mapGet? root "a" = none ∧ mapGet? root "audio" = none)
    ∧ (ctx.bestSubtitle = none →
       "s" ∉ ctx.metadata.map Prod.fst → "subtitle" ∉ ctx.metadata.map Prod.fst →
       mapGet? root "s" = none ∧ mapGet? root "subtitle" = none) := by
  rw [get_metadata_value_eq ctx args tz tagsRoot streams h1 h2] at hroot
  have hr : root = mapInsert
      (insertBest (insertBest (insertBest tagsRoot "v" "video" ctx.bestVideo streams)
        "a" "audio" ctx.bestAudio streams) "s" "subtitle" ctx.bestSubtitle streams)
      "streams" (.arr streams) := by
    injection hroot with hv
    injection hv with hv2
    exact hv2.symm
  subst hr
  refine ⟨?_, ?_, ?_, ?_, ?_, ?_⟩
  · intro i sv hb hs
    rw [hb]
    have hit := mapGet?_insertBest_hit tagsRoot "v" "video" i streams sv hs (by decide)
    constructor
    · rw [mapGet?_insert_ne _ _ _ _ (by decide),
          mapGet?_insertBest_ne _ _ _ _ _ _ (by decide) (by decide),
          mapGet?_insertBest_ne _ _ _ _ _ _ (by decide) (by decide), hit.1]
    · rw [mapGet?_insert_ne _ _ _ _ (by decide),
          mapGet?_insertBest_ne _ _ _ _ _ _ (by decide) (by decide),
          mapGet?_insertBest_ne _ _ _ _ _ _ (by decide) (by decide), hit.2]
  · intro i sv hb hs
    rw [hb]
    have hit := mapGet?_insertBest_hit
      (insertBest tagsRoot "v" "video" ctx.bestVideo streams) "a" "audio" i streams sv hs
      (by decide)
    constructor
    · rw [mapGet?_insert_ne _ _ _ _ (by decide),
          mapGet?_insertBest_ne _ _ _ _ _ _ (by decide) (by decide), hit.1]
    · rw [mapGet?_insert_ne _ _ _ _ (by decide),
          mapGet?_insertBest_ne _ _ _ _ _ _ (by decide) (by decide), hit.2]
  · intro i sv hb hs
    rw [hb]
    have hit := mapGet?_insertBest_hit
      (insertBest (insertBest tagsRoot "v" "video" ctx.bestVideo streams)
        "a" "audio" ctx.bestAudio streams) "s" "subtitle" i streams sv hs (by decide)
    constructor
    · rw [mapGet?_insert_ne _ _ _ _ (by decide), hit.1]
    · rw [mapGet?_insert_ne _ _ _ _ (by decide), hit.2]
  · intro hb hm1 hm2
    rw [hb]
    constructor
    · rw [mapGet?_insert_ne _ _ _ _ (by decide),
          mapGet?_insertBest_ne _ _ _ _ _ _ (by decide) (by decide),
          mapGet?_insertBest_ne _ _ _ _ _ _ (by decide) (by decide),
          insertBest_none,
          insertMetadataTags_preserve _ _ _ _ _ _ h1 hm1
            (fun hc => absurd hc (by decide))]
      rfl
    · rw [mapGet?_insert_ne _ _ _ _ (by decide),
          mapGet?_insertBest_ne _ _ _ _ _ _ (by decide) (by decide),
          mapGet?_insertBest_ne _ _ _ _ _ _ (by decide) (by decide),
          insertBest_none,
          insertMetadataTags_preserve _ _ _ _ _ _ h1 hm2
            (fun hc => absurd hc (by decide))]
      rfl
  · intro hb hm1 hm2
    rw [hb]
    constructor
    · rw [mapGet?_insert_ne _ _ _ _ (by decide),
          mapGet?_insertBest_ne _ _ _ _ _ _ (by decide) (by decide),
          insertBest_none,
          mapGet?_insertBest_ne _ _ _ _ _ _ (by decide) (by decide),
          insertMetadataTags_preserve _ _ _ _ _ _ h1 hm1
            (fun hc => absurd hc (by decide))]
      rfl
    · rw [mapGet?_insert_ne _ _ _ _ (by decide),
          mapGet?_insertBest_ne _ _ _ _ _ _ (by decide) (by decide),
          insertBest_none,
          mapGet?_insertBest_ne _ _ _ _ _ _ (by decide) (by decide),
          insertMetadataTags_preserve _ _ _ _ _ _ h1 hm2
            (fun hc => absurd hc (by decide))]
      rfl
  · intro hb hm1 hm2
    rw [hb]
    constructor
    · rw [mapGet?_insert_ne _ _ _ _ (by decide),
          insertBest_none,
          mapGet?_insertBest_ne _ _ _ _ _ _ (by decide) (by decide),
          mapGet?_insertBest_ne _ _ _ _ _ _ (by decide) (by decide),
          insertMetadataTags_preserve _ _ _ _ _ _ h1 hm1
            (fun hc => absurd hc (by decide))]
      rfl
    · rw [mapGet?_insert_ne _ _ _ _ (by decide),
          insertBest_none,
          mapGet?_insertBest_ne _ _ _ _ _ _ (by decide) (by decide),
          mapGet?_insertBest_ne _ _ _ _ _ _ (by decide) (by decide),
          insertMetadataTags_preserve _ _ _ _ _ _ h1 hm2
            (fun hc => absurd hc (by decide))]
      rfl
-- scratch: C8, C10, C6

/-- C8: the injected keys win over same-named container metadata tags: the
final bindings of `org`/`original`/`original_filename`, `streams` and the
best-stream aliases are fixed by the pipeline regardless of the tag list. -/
theorem c8_injected_keys_shadow_tags (ctx : Container) (args : Args) (tz : Int)
    (tagsRoot root : JMap) (streams : List Value) (fn : String)
    (h1 : insertMetadataTags args.datetime_format tz ctx.metadata [] = .ok tagsRoot)
    (h2 : buildStreams ctx.streams = .ok streams)
    (hroot : get_metadata_value ctx args tz = .ok (.obj root)) :
    mapGet? (inject_filename root fn) "org" = some (.str fn)
    ∧ mapGet? (inject_filename root fn) "original" = some (.str fn)
    ∧ mapGet? (inject_filename root fn) "original_filename" = some (.str fn)
    ∧ mapGet? root "streams" = some (.arr streams)
    ∧ (∀ i sv, ctx.bestVideo = some i → streams.get? i = some sv →
        mapGet? root "v" = some sv) := by
  rw [get_metadata_value_eq ctx args tz tagsRoot streams h1 h2] at hroot
  have hr : root = mapInsert
      (insertBest (insertBest (insertBest tagsRoot "v" "video" ctx.bestVideo streams)
        "a" "audio" ctx.bestAudio streams) "s" "subtitle" ctx.bestSubtitle streams)
      "streams" (.arr streams) := by
    injection hroot with hv
    injection hv with hv2
    exact hv2.symm
  subst hr
  refine ⟨?_, ?_, ?_, ?_, ?_⟩
  · unfold inject_filename
    rw [mapGet?_insert_ne _ _ _ _ (by decide), mapGet?_insert_ne _ _ _ _ (by decide),
        mapGet?_insert_self]
  · unfold inject_filename
    rw [mapGet?_insert_ne _ _ _ _ (by decide), mapGet?_insert_self]
  · unfold inject_filename
    rw [mapGet?_insert_self]
  · rw [mapGet?_insert_self]
  · intro i sv hb hs
    rw [hb]
    rw [mapGet?_insert_ne _ _ _ _ (by decide),
        mapGet?_insertBest_ne _ _ _ _ _ _ (by decide) (by decide),
        mapGet?_insertBest_ne _ _ _ _ _ _ (by decide) (by decide),
        (mapGet?_insertBest_hit tagsRoot "v" "video" i streams sv hs (by decide)).1]

/-- C10: the best-stream alias insertion is total: an out-of-range best
index inserts nothing, an in-range one stores exactly the indexed entry of
the built streams list under both alias keys. -/
theorem c10_insertBest_total (m : JMap) (k1 k2 : String) (i : Nat)
    (streams : List Value) :
    (streams.get? i = none → insertBest m k1 k2 (some i) streams = m)
    ∧ (∀ sv, streams.get? i = some sv → ¬(k1 = k2) →
        insertBest m k1 k2 (some i) streams = mapInsert (mapInsert m k1 sv) k2 sv
        ∧ mapGet? (insertBest m k1 k2 (some i) streams) k1 = some sv
        ∧ mapGet? (insertBest m k1 k2 (some i) streams) k2 = some sv) := by
  constructor
  · intro h
    exact insertBest_miss m k1 k2 i streams h
  · intro sv h h12
    refine ⟨by simp only [insertBest, h], ?_, ?_⟩
    · exact (mapGet?_insertBest_hit m k1 k2 i streams sv h h12).1
    · exact (mapGet?_insertBest_hit m k1 k2 i streams sv h h12).2

/-- C6: metadata tags are copied unchanged under their own keys, except
`creation_time`, whose normalised value is stored under both its own key
and the alias `ct`. -/
theorem c6_creation_time_normalised (ctx : Container) (args : Args) (tz : Int)
    (tagsRoot root : JMap) (streams : List Value) (cv : String) (w : Value)
    (h1 : insertMetadataTags args.datetime_format tz ctx.metadata [] = .ok tagsRoot)
    (h2 : buildStreams ctx.streams = .ok streams)
    (hroot : get_metadata_value ctx args tz = .ok (.obj root))
    (hnodup : (ctx.metadata.map Prod.fst).Nodup)
    (hct : "ct" ∉ ctx.metadata.map Prod.fst)
    (hmem : ("creation_time", cv) ∈ ctx.metadata)
    (hfmt : format_datetime (.str cv) args.datetime_format tz = .ok w) :
    mapGet? root "creation_time" = some w
    ∧ mapGet? root "ct" = some w
    ∧ (∀ k u, (k, u) ∈ ctx.metadata → ¬(k = "creation_time") →
        k ∉ (["v", "video", "a", "audio", "s", "subtitle", "streams"] : List String) →
        mapGet? root k = some (.str u)) := by
  rw [get_metadata_value_eq ctx args tz tagsRoot streams h1 h2] at hroot
  have hr : root = mapInsert
      (insertBest (insertBest (insertBest tagsRoot "v" "video" ctx.bestVideo streams)
        "a" "audio" ctx.bestAudio streams) "s" "subtitle" ctx.bestSubtitle streams)
      "streams" (.arr streams) := by
    injection hroot with hv
    injection hv with hv2
    exact hv2.symm
  subst hr
  have hcr := insertMetadataTags_creation args.datetime_format tz ctx.metadata [] tagsRoot
    cv w h1 hnodup hct hmem hfmt
  refine ⟨?_, ?_, ?_⟩
  · rw [mapGet?_aliasBlock _ _ _ _ _ _ (by decide), hcr.1]
  · rw [mapGet?_aliasBlock _ _ _ _ _ _ (by decide), hcr.2]
  · intro k u hku hkcr hkal
    rw [mapGet?_aliasBlock _ _ _ _ _ _ hkal]
    exact insertMetadataTags_copies args.datetime_format tz ctx.metadata [] tagsRoot
      h1 hnodup hct k u hku hkcr

set_option maxHeartbeats 2000000 in
/-- C5 (amended): in every built per-stream map the rational fields carry
their three forms — except that for an audio stream whose decoder view
opens, the integer sample rate overwrites the base key `rate` (its
`_str`/`_float` forms keep the rational). -/
theorem c5_rational_three_forms (s : MediaStream) (c : Codec) (sm : JMap)
    (hc : s.codec = some c)
    (hok : buildStreamValue s = .ok (.obj sm)) :
    mapGet? sm "time_base" = some (.arr [.int s.time_base.1, .int s.time_base.2])
    ∧ mapGet? sm "time_base_str"
        = some (.str (toString s.time_base.1 ++ "/" ++ toString s.time_base.2))
    ∧ mapGet? sm "time_base_float" = some (.float s.time_base.1 s.time_base.2)
    ∧ mapGet? sm "rate_str" = some (.str (toString s.rate.1 ++ "/" ++ toString s.rate.2))
    ∧ mapGet? sm "rate_float" = some (.float s.rate.1 s.rate.2)
    ∧ ((c.medium = .audio → c.audio = none) →
        mapGet? sm "rate" = some (.arr [.int s.rate.1, .int s.rate.2]))
    ∧ (∀ ai, c.medium = .audio → c.audio = some ai →
        mapGet? sm "rate" = some (.int ai.rate))
    ∧ (∀ vi, c.medium = .video → c.video = some vi →
        mapGet? sm "aspect_ratio" = some (.arr [.int vi.aspect.1, .int vi.aspect.2])
        ∧ mapGet? sm "aspect_ratio_str"
            = some (.str (toString vi.aspect.1 ++ "/" ++ toString vi.aspect.2))
        ∧ mapGet? sm "aspect_ratio_float" = some (.float vi.aspect.1 vi.aspect.2)) := by
  cases hm : c.medium with
  | video =>
    cases hcv : c.video with
    | some vi =>
      simp only [buildStreamValue, hc, hm, hcv, insert_rational_value] at hok
      simp only [eq_self_iff_true, if_true, reduceCtorEq, if_false] at hok
      injection hok with h1
      injection h1 with h2
      subst h2
      refine ⟨?_, ?_, ?_, ?_, ?_, ?_, ?_, ?_⟩
      · simp [addVideoFields, insert_rational_value, mapGet?_insert]
      · simp [addVideoFields, insert_rational_value, mapGet?_insert]
      · simp [addVideoFields, insert_rational_value, mapGet?_insert]
      · simp [addVideoFields, insert_rational_value, mapGet?_insert]
      · simp [addVideoFields, insert_rational_value, mapGet?_insert]
      · intro _
        simp [addVideoFields, insert_rational_value, mapGet?_insert]
      · intro ai hma
        exact absurd hma (by simp)
      · intro vi' _ hcv'
        have hvi : vi = vi' := Option.some.inj hcv'
        rw [← hvi]
        refine ⟨?_, ?_, ?_⟩ <;>
          simp [addVideoFields, insert_rational_value, mapGet?_insert]
    | none =>
      simp only [buildStreamValue, hc, hm, hcv, insert_rational_value] at hok
      simp only [eq_self_iff_true, if_true, reduceCtorEq, if_false] at hok
      injection hok with h1
      injection h1 with h2
      subst h2
      refine ⟨?_, ?_, ?_, ?_, ?_, ?_, ?_, ?_⟩
      · simp [insert_rational_value, mapGet?_insert]
      · simp [insert_rational_value, mapGet?_insert]
      · simp [insert_rational_value, mapGet?_insert]
      · simp [insert_rational_value, mapGet?_insert]
      · simp [insert_rational_value, mapGet?_insert]
      · intro _
        simp [insert_rational_value, mapGet?_insert]
      · intro ai hma
        exact absurd hma (by simp)
      · intro vi hmv hcv'
        exact Option.noConfusion hcv'
  | audio =>
    cases hca : c.audio with
    | some ai =>
      simp only [buildStreamValue, hc, hm, hca, insert_rational_value] at hok
      simp only [eq_self_iff_true, if_true, reduceCtorEq, if_false] at hok
      injection hok with h1
      injection h1 with h2
      subst h2
      refine ⟨?_, ?_, ?_, ?_, ?_, ?_, ?_, ?_⟩
      · simp [addAudioFields, insert_rational_value, mapGet?_insert]
      · simp [addAudioFields, insert_rational_value, mapGet?_insert]
      · simp [addAudioFields, insert_rational_value, mapGet?_insert]
      · simp [addAudioFields, insert_rational_value, mapGet?_insert]
      · simp [addAudioFields, insert_rational_value, mapGet?_insert]
      · intro h
        exact absurd (h rfl) (by simp)
      · intro ai' _ hca'
        have hai : ai = ai' := Option.some.inj hca'
        rw [← hai]
        simp [addAudioFields, insert_rational_value, mapGet?_insert]
      · intro vi hmv
        exact absurd hmv (by simp)
    | none =>
      simp only [buildStreamValue, hc, hm, hca, insert_rational_value] at hok
      simp only [eq_self_iff_true, if_true, reduceCtorEq, if_false] at hok
      injection hok with h1
      injection h1 with h2
      subst h2
      refine ⟨?_, ?_, ?_, ?_, ?_, ?_, ?_, ?_⟩
      · simp [insert_rational_value, mapGet?_insert]
      · simp [insert_rational_value, mapGet?_insert]
      · simp [insert_rational_value, mapGet?_insert]
      · simp [insert_rational_value, mapGet?_insert]
      · simp [insert_rational_value, mapGet?_insert]
      · intro _
        simp [insert_rational_value, mapGet?_insert]
      · intro ai hma hca'
        exact Option.noConfusion hca'
      · intro vi hmv
        exact absurd hmv (by simp)
  | unknown =>
    simp only [buildStreamValue, hc, hm, insert_rational_value] at hok
    simp only [eq_self_iff_true, if_true, reduceCtorEq, if_false] at hok
    injection hok with h1
    injection h1 with h2
    subst h2
    refine ⟨?_, ?_, ?_, ?_, ?_, ?_, ?_, ?_⟩
    · simp [insert_rational_value, mapGet?_insert]
    · simp [insert_rational_value, mapGet?_insert]
    · simp [insert_rational_value, mapGet?_insert]
    · simp [insert_rational_value, mapGet?_insert]
    · simp [insert_rational_value, mapGet?_insert]
    · intro _
      simp [insert_rational_value, mapGet?_insert]
    · intro ai hma
      exact absurd hma (by simp)
    · intro vi hmv
      exact absurd hmv (by simp)
  | data =>
    simp only [buildStreamValue, hc, hm, insert_rational_value] at hok
    simp only [eq_self_iff_true, if_true, reduceCtorEq, if_false] at hok
    injection hok with h1
    injection h1 with h2
    subst h2
    refine ⟨?_, ?_, ?_, ?_, ?_, ?_, ?_, ?_⟩
    · simp [insert_rational_value, mapGet?_insert]
    · simp [insert_rational_value, mapGet?_insert]
    · simp [insert_rational_value, mapGet?_insert]
    · simp [insert_rational_value, mapGet?_insert]
    · simp [insert_rational_value, mapGet?_insert]
    · intro _
      simp [insert_rational_value, mapGet?_insert]
    · intro ai hma
      exact absurd hma (by simp)
    · intro vi hmv
      exact absurd hmv (by simp)
  | subtitle =>
    simp only [buildStreamValue, hc, hm, insert_rational_value] at hok
    simp only [eq_self_iff_true, if_true, reduceCtorEq, if_false] at hok
    injection hok with h1
    injection h1 with h2
    subst h2
    refine ⟨?_, ?_, ?_, ?_, ?_, ?_, ?_, ?_⟩
    · simp [insert_rational_value, mapGet?_insert]
    · simp [insert_rational_value, mapGet?_insert]
    · simp [insert_rational_value, mapGet?_insert]
    · simp [insert_rational_value, mapGet?_insert]
    · simp [insert_rational_value, mapGet?_insert]
    · intro _
      simp [insert_rational_value, mapGet?_insert]
    · intro ai hma
      exact absurd hma (by simp)
    · intro vi hmv
      exact absurd hmv (by simp)
  | attachment =>
    simp only [buildStreamValue, hc, hm, insert_rational_value] at hok
    simp only [eq_self_iff_true, if_true, reduceCtorEq, if_false] at hok
    injection hok with h1
    injection h1 with h2
    subst h2
    refine ⟨?_, ?_, ?_, ?_, ?_, ?_, ?_, ?_⟩
    · simp [insert_rational_value, mapGet?_insert]
    · simp [insert_rational_value, mapGet?_insert]
    · simp [insert_rational_value, mapGet?_insert]
    · simp [insert_rational_value, mapGet?_insert]
    · simp [insert_rational_value, mapGet?_insert]
    · intro _
      simp [insert_rational_value, mapGet?_insert]
    · intro ai hma
      exact absurd hma (by simp)
    · intro vi hmv
      exact absurd hmv (by simp)

/-- C3: asymmetric error handling in directory traversal: once the loop
reaches child `c` (everything before it succeeded), an error from a
subdirectory child propagates out and stops the traversal, while an error
from a regular-file child is logged with the offending path and the loop
continues with the remaining children. -/
theorem c3_dir_error_asymmetry (env : Env) (args : Args) (fuel : Nat) (path : FsPath)
    (pre post : List FsPath) (c : FsPath) (trPre : List Effect)
    (hdir : env.isDir path = true)
    (hread : env.readDir path = some (pre ++ c :: post))
    (hpre : dirLoop env args (process_dir env args fuel) pre = (.ok (), trPre)) :
    (∀ e trC, env.isDir c = true →
       process_dir env args fuel c = (.error e, trC) →
       process_dir env args (fuel + 1) path = (.error e, trPre ++ trC))
    ∧ (∀ e trC, env.isDir c = false →
       process_file env args c = (.error e, trC) →
       process_dir env args (fuel + 1) path
         = ((dirLoop env args (process_dir env args fuel) post).1,
            trPre ++ (trC ++ [Effect.logErrorInPath c e]
              ++ (dirLoop env args (process_dir env args fuel) post).2))) := by
  have hstep : process_dir env args (fuel + 1) path
      = dirLoop env args (process_dir env args fuel) (pre ++ c :: post) := by
    simp only [process_dir, hdir, hread, if_true]
  have happ := dirLoop_append_ok env args (process_dir env args fuel) pre (c :: post)
    trPre hpre
  constructor
  · intro e trC hc herr
    rw [hstep, happ]
    have hcons : dirLoop env args (process_dir env args fuel) (c :: post)
        = (.error e, trC) := by
      simp only [dirLoop, hc, if_true, herr]
    rw [hcons]
  · intro e trC hc herr
    rw [hstep, happ]
    have hcons : dirLoop env args (process_dir env args fuel) (c :: post)
        = ((dirLoop env args (process_dir env args fuel) post).1,
           trC ++ [Effect.logErrorInPath c e]
             ++ (dirLoop env args (process_dir env args fuel) post).2) := by
      simp only [dirLoop, hc, herr, Bool.false_eq_true, if_false]
    rw [hcons]

/- ### Witnesses and counterexample -/

/-- Witness for C9 at the filesystem root and at a `..`-terminated path. -/
theorem c9_no_filename_noop_witness :
    FsPath.fileName? wRootPath = none
    ∧ process_file wEnv wArgs wRootPath = (.ok (), [])
    ∧ FsPath.fileName? wDotDotPath = none
    ∧ process_file wEnv wArgs wDotDotPath = (.ok (), []) :=
  ⟨rfl, c9_no_filename_noop wEnv wArgs wRootPath rfl,
   rfl, c9_no_filename_noop wEnv wArgs wDotDotPath rfl⟩

/-- Witness for C4 on a non-media file. -/
theorem c4_probe_failure_silent_skip_witness :
    wEnv.probe wTextFile = none
    ∧ (process_file wEnv wArgs wTextFile).1 = .ok ()
    ∧ onlyProbes (process_file wEnv wArgs wTextFile).2 = true :=
  ⟨rfl, (c4_probe_failure_silent_skip wEnv wArgs wTextFile rfl).1,
   (c4_probe_failure_silent_skip wEnv wArgs wTextFile rfl).2⟩

/-- Witness for C2: the default (dry-run) arguments never rename. -/
theorem c2_dry_run_no_rename_witness :
    wArgs.run = false
    ∧ hasRename (process_file wEnv wArgs wFile).2 = false :=
  ⟨rfl, c2_dry_run_no_rename wEnv wArgs wFile rfl⟩

/-- Witness for C1: with the destination occupied, the run fails with the
collision message and performs no rename. -/
theorem c1_collision_no_rename_witness :
    wEnvExists.fsExists (FsPath.join ⟨true, ["d"]⟩ "out.mp4") = true
    ∧ process_file wEnvExists wArgs wFile
        = (.error (.message "File already exists at new path: \"/d/out.mp4\""),
           [.probe wFile, .renderCall (.obj (inject_filename wRootMap "f.mp4"))])
    ∧ hasRename (process_file wEnvExists wArgs wFile).2 = false := by
  have h := c1_collision_no_rename wEnvExists wArgs wFile wContainer wRootMap
    "f.mp4" "out.mp4" ⟨true, ["d"]⟩ rfl rfl rfl rfl rfl rfl
  exact ⟨rfl, h.1, h.2⟩

/-- Witness for C3: an unreadable subdirectory of `/a` aborts its
traversal, while the bad file in `/b` is logged and traversal finishes. -/
theorem c3_dir_error_asymmetry_witness :
    wDirEnv.isDir wDirA = true
    ∧ wDirEnv.isDir wSub = true
    ∧ process_dir wDirEnv wArgs 1 wSub = (.error .io, [])
    ∧ process_dir wDirEnv wArgs 2 wDirA = (.error .io, [])
    ∧ wDirEnv.isDir wBadFile = false
    ∧ process_file wDirEnv wArgs wBadFile
        = (.error .chronoFormatParse, [.probe wBadFile])
    ∧ process_dir wDirEnv wArgs 2 wDirB
        = (.ok (), [.probe wBadFile,
            .logErrorInPath wBadFile .chronoFormatParse]) := by
  have hA := (c3_dir_error_asymmetry wDirEnv wArgs 1 wDirA [] [] wSub []
    rfl rfl rfl).1 .io [] rfl rfl
  have hB := (c3_dir_error_asymmetry wDirEnv wArgs 1 wDirB [] [] wBadFile []
    rfl rfl rfl).2 .chronoFormatParse [.probe wBadFile] rfl rfl
  exact ⟨rfl, rfl, rfl, hA, rfl, rfl, hB⟩

/-- Counterexample for C5 as stated: in the audio stream's map the base
key `rate` holds the integer sample rate, not the 2-element rational pair
(`rate_str` still shows the stream rational 30000/1001). -/
theorem c5_audio_rate_counterexample :
    buildStreamValue wAudioStream = .ok (.obj wAudioMap)
    ∧ mapGet? wAudioMap "rate" = some (.int 44100)
    ∧ mapGet? wAudioMap "rate_str" = some (.str "30000/1001")
    ∧ mapGet? wAudioMap "rate" ≠ some (.arr [.int 30000, .int 1001]) :=
  ⟨rfl, rfl, rfl, fun h => Value.noConfusion (Option.some.inj h)⟩

/-- Witness for the amended C5 at the concrete audio stream. -/
theorem c5_rational_three_forms_witness :
    wAudioStream.codec = some wAudioCodec
    ∧ buildStreamValue wAudioStream = .ok (.obj wAudioMap)
    ∧ mapGet? wAudioMap "time_base" = some (.arr [.int 1, .int 48000])
    ∧ mapGet? wAudioMap "rate_str" = some (.str "30000/1001")
    ∧ mapGet? wAudioMap "rate_float" = some (.float 30000 1001)
    ∧ mapGet? wAudioMap "rate" = some (.int 44100) := by
  have h := c5_rational_three_forms wAudioStream wAudioCodec wAudioMap rfl rfl
  exact ⟨rfl, rfl, h.1, h.2.2.2.1, h.2.2.2.2.1,
    h.2.2.2.2.2.2.1 wAudioInfo rfl rfl⟩

/-- Witness for C6 at the concrete container: creation time normalised
under both keys with UTC+0 and the default format, other tags copied. -/
theorem c6_creation_time_normalised_witness :
    get_metadata_value wContainer wArgs 0 = .ok (.obj wRootMap)
    ∧ mapGet? wRootMap "creation_time" = some (.str "20230501100000")
    ∧ mapGet? wRootMap "ct" = some (.str "20230501100000")
    ∧ mapGet? wRootMap "title" = some (.str "T") := by
  have h := c6_creation_time_normalised wContainer wArgs 0 wTagsRoot wRootMap
    wStreams "2023-05-01T10:00:00Z" (.str "20230501100000")
    rfl rfl rfl (by decide) (by decide) (by decide) rfl
  exact ⟨rfl, h.1, h.2.1, h.2.2 "title" "T" (by decide) (by decide) (by decide)⟩

/-- Witness for C7 at the concrete container: video/audio aliases present
and equal to the `streams` entries, subtitle aliases absent. -/
theorem c7_best_stream_aliases_witness :
    get_metadata_value wContainer wArgs 0 = .ok (.obj wRootMap)
    ∧ wContainer.bestVideo = some 0
    ∧ wStreams.get? 0 = some wVideoStreamValue
    ∧ mapGet? wRootMap "v" = some wVideoStreamValue
    ∧ mapGet? wRootMap "video" = some wVideoStreamValue
    ∧ wContainer.bestAudio = some 1
    ∧ wStreams.get? 1 = some wAudioStreamValue
    ∧ mapGet? wRootMap "a" = some wAudioStreamValue
    ∧ mapGet? wRootMap "audio" = some wAudioStreamValue
    ∧ wContainer.bestSubtitle = none
    ∧ mapGet? wRootMap "s" = none
    ∧ mapGet? wRootMap "subtitle" = none := by
  have h := c7_best_stream_aliases wContainer wArgs 0 wTagsRoot wRootMap wStreams
    rfl rfl rfl
  exact ⟨rfl, rfl, rfl,
    (h.1 0 wVideoStreamValue rfl rfl).1, (h.1 0 wVideoStreamValue rfl rfl).2,
    rfl, rfl,
    (h.2.1 1 wAudioStreamValue rfl rfl).1, (h.2.1 1 wAudioStreamValue rfl rfl).2,
    rfl,
    (h.2.2.2.2.2 rfl (by decide) (by decide)).1,
    (h.2.2.2.2.2 rfl (by decide) (by decide)).2⟩

/-- Witness for C8 at a container whose tags are named `streams`, `v` and
`org`: the tag values are invisible in the final context. -/
theorem c8_injected_keys_shadow_tags_witness :
    get_metadata_value wShadowContainer wArgs 0 = .ok (.obj wShadowRootMap)
    ∧ ("streams", "tagvalue") ∈ wShadowContainer.metadata
    ∧ ("v", "tagvalue") ∈ wShadowContainer.metadata
    ∧ ("org", "tagvalue") ∈ wShadowContainer.metadata
    ∧ mapGet? (inject_filename wShadowRootMap "f.mp4") "org" = some (.str "f.mp4")
    ∧ mapGet? wShadowRootMap "streams" = some (.arr wShadowStreams)
    ∧ mapGet? wShadowRootMap "v" = some wVideoStreamValue
    ∧ mapGet? wShadowRootMap "streams" ≠ some (.str "tagvalue")
    ∧ mapGet? wShadowRootMap "v" ≠ some (.str "tagvalue") := by
  have h := c8_injected_keys_shadow_tags wShadowContainer wArgs 0 wShadowTagsRoot
    wShadowRootMap wShadowStreams "f.mp4" rfl rfl rfl
  have hv : mapGet? wShadowRootMap "v" = some wVideoStreamValue :=
    h.2.2.2.2 0 wVideoStreamValue rfl rfl
  refine ⟨rfl, by decide, by decide, by decide, h.1, h.2.2.2.1, hv, ?_, ?_⟩
  · intro hcontra
    exact Value.noConfusion (Option.some.inj (h.2.2.2.1.symm.trans hcontra))
  · intro hcontra
    exact Value.noConfusion (Option.some.inj (hv.symm.trans hcontra))

/-- Witness for C10: index 5 is out of range of the one-entry list and
inserts nothing; index 0 hits and stores the entry under both keys. -/
theorem c10_insertBest_total_witness :
    ([wVideoStreamValue] : List Value).get? 5 = none
    ∧ insertBest [] "v" "video" (some 5) [wVideoStreamValue] = []
    ∧ ([wVideoStreamValue] : List Value).get? 0 = some wVideoStreamValue
    ∧ mapGet? (insertBest [] "v" "video" (some 0) [wVideoStreamValue]) "v"
        = some wVideoStreamValue
    ∧ mapGet? (insertBest [] "v" "video" (some 0) [wVideoStreamValue]) "video"
        = some wVideoStreamValue := by
  have h5 := c10_insertBest_total [] "v" "video" 5 [wVideoStreamValue]
  have h0 := c10_insertBest_total [] "v" "video" 0 [wVideoStreamValue]
  exact ⟨rfl, h5.1 rfl, rfl,
    (h0.2 wVideoStreamValue rfl (by decide)).2.1,
    (h0.2 wVideoStreamValue rfl (by decide)).2.2⟩
